import Mathlib

/-!
Verification of the supabase-memory-mcp memory engine against its source.

The model is a shallow embedding of the behavior in `src/index.ts` together
with the database schema (`schema.sql`, the revision that matches the v2.0
server: `memories` with `type`/`importance`, `memory_relations`,
`structured_memories`, `short_term_memory`, and the `match_memories` /
`get_related_memories` SQL functions).

Modelling choices:
- timestamps are integers (`Int`), with `now` passed explicitly;
- JSON values (`metadata`, structured/ephemeral `value`) are opaque strings;
- real/FLOAT arithmetic is modelled by exact fractions (`Frac` below): the
  engine only multiplies, adds, subtracts and compares similarity scores,
  so any linearly ordered field model of the reals is adequate, and exact
  fractions keep every operation computable by the kernel;
- embeddings are lists of fractions; pgvector's cosine-distance operator
  `<=>` equals `1 - dot product` for L2-normalized vectors, and the
  embedding provider (`embedding.ts`) always normalizes, so we define
  `cosineDistance a b = 1 - dot a b`;
- database uniqueness / foreign-key constraints (primary keys, the
  `UNIQUE` clauses, `REFERENCES ... ON DELETE CASCADE`) are modelled
  directly inside the state-transition functions, exactly where Postgres
  would enforce them;
- SQL `ORDER BY` is modelled by `List.insertionSort` with the comparison
  the `ORDER BY` clause denotes (any sorted order realizes the clause);
- a thrown Supabase error that the tool handler catches and reports with
  `isError: true` is modelled as an `Except.error`.
-/

/-- Exact fraction with a positive denominator, modelling the SQL FLOAT
similarity scores. No normalization is performed; the order relation and
the arithmetic are the usual ones on `num / den`. -/
structure Frac where
  num : Int
  den : Int
  den_pos : 0 < den

instance : DecidableEq Frac := fun a b =>
  if h : a.num = b.num ∧ a.den = b.den then
    isTrue (by cases a; cases b; simp only at h; simp [h.1, h.2])
  else
    isFalse (by intro he; cases he; exact h ⟨rfl, rfl⟩)

/-- Build a fraction from a numerator, a denominator and its positivity. -/
def fr (n d : Int) (h : 0 < d) : Frac := ⟨n, d, h⟩

/-- The integer `n` as a fraction. -/
def Frac.ofInt (n : Int) : Frac := ⟨n, 1, Int.one_pos⟩

/-- Product of fractions. -/
def Frac.mul (a b : Frac) : Frac :=
  ⟨a.num * b.num, a.den * b.den, mul_pos a.den_pos b.den_pos⟩

/-- Sum of fractions (cross-multiplied, no reduction). -/
def Frac.add (a b : Frac) : Frac :=
  ⟨a.num * b.den + b.num * a.den, a.den * b.den, mul_pos a.den_pos b.den_pos⟩

/-- Difference of fractions (cross-multiplied, no reduction). -/
def Frac.sub (a b : Frac) : Frac :=
  ⟨a.num * b.den - b.num * a.den, a.den * b.den, mul_pos a.den_pos b.den_pos⟩

instance : LE Frac := ⟨fun a b => a.num * b.den ≤ b.num * a.den⟩

theorem Frac.le_def (a b : Frac) : a ≤ b ↔ a.num * b.den ≤ b.num * a.den :=
  Iff.rfl

instance : DecidableRel (fun a b : Frac => a ≤ b) := fun a b =>
  inferInstanceAs (Decidable (a.num * b.den ≤ b.num * a.den))

theorem Frac.le_total (a b : Frac) : a ≤ b ∨ b ≤ a := by
  rw [Frac.le_def, Frac.le_def]
  exact (Int.le_total (a.num * b.den) (b.num * a.den)).imp id id

theorem Frac.le_trans {a b c : Frac} (h1 : a ≤ b) (h2 : b ≤ c) : a ≤ c := by
  rw [Frac.le_def] at h1 h2 ⊢
  have ha := a.den_pos
  have hb := b.den_pos
  have hc := c.den_pos
  have h1c : a.num * b.den * c.den ≤ b.num * a.den * c.den :=
    mul_le_mul_of_nonneg_right h1 (le_of_lt hc)
  have h2a : b.num * c.den * a.den ≤ c.num * b.den * a.den :=
    mul_le_mul_of_nonneg_right h2 (le_of_lt ha)
  have hkey : a.num * c.den * b.den ≤ c.num * a.den * b.den := by nlinarith
  exact le_of_mul_le_mul_right hkey hb

/-- Error outcomes surfaced by the underlying store. `validation` covers
zod rejections and the `vector(384)` column dimension check; `notFound`
is a foreign-key violation (error 23503); `conflict` is a unique-constraint
violation (error 23505). -/
inductive MCPError where
  | validation
  | notFound
  | conflict
deriving Repr, DecidableEq

/-- Row of the `memories` table (schema.sql). `mtype` stands for the SQL
column `type`, which is a reserved word in Lean. -/
structure Memory where
  id : Nat
  project_id : String
  category : Option String
  content : String
  embedding : List Frac
  metadata : String
  mtype : String
  importance : Int
  created_at : Int
  updated_at : Int
deriving DecidableEq

/-- Row of the `memory_relations` table. -/
structure Relation where
  id : Nat
  source_id : Nat
  target_id : Nat
  relation_type : String
  created_at : Int
deriving DecidableEq

/-- Row of the `structured_memories` table. -/
structure StructuredEntry where
  id : Nat
  project_id : String
  category : String
  key : String
  value : String
  description : Option String
  created_at : Int
  updated_at : Int
deriving DecidableEq

/-- Row of the `short_term_memory` table. -/
structure ShortTermEntry where
  id : Nat
  session_id : String
  key : String
  value : String
  created_at : Int
  expires_at : Option Int
deriving DecidableEq

/-- The four tables of the schema. -/
structure DB where
  memories : List Memory
  memory_relations : List Relation
  structured_memories : List StructuredEntry
  short_term_memory : List ShortTermEntry
deriving DecidableEq

/-- Dot product of two vectors, componentwise over the common prefix. -/
def dotProduct (a b : List Frac) : Frac :=
  (List.zipWith Frac.mul a b).foldr Frac.add (Frac.ofInt 0)

/-- Cosine distance (pgvector `<=>`). The stored embeddings and the query
embedding are produced L2-normalized (`embedding.ts` runs the model with
`normalize: true`), and for unit vectors cosine distance is `1 - dot`. -/
def cosineDistance (a b : List Frac) : Frac :=
  Frac.sub (Frac.ofInt 1) (dotProduct a b)

/-- Similarity score computed by `match_memories`:
`1 - (m.embedding <=> query_embedding)`. -/
def similarityOf (m : Memory) (q : List Frac) : Frac :=
  Frac.sub (Frac.ofInt 1) (cosineDistance m.embedding q)

/-- Row shape returned by the SQL function `match_memories` (the revision
returning `type` and `importance`). -/
structure SearchRow where
  id : Nat
  project_id : String
  category : Option String
  content : String
  metadata : String
  mtype : String
  importance : Int
  created_at : Int
  similarity : Frac
deriving DecidableEq

/-- The `ORDER BY m.importance DESC, (m.embedding <=> query_embedding) ASC`
comparison used by `match_memories`: `a` may come before `b` when `a` has
strictly higher importance, or equal importance and distance at most `b`'s. -/
def searchRel (q : List Frac) (a b : Memory) : Prop :=
  b.importance < a.importance ∨
    (a.importance = b.importance ∧
      cosineDistance a.embedding q ≤ cosineDistance b.embedding q)

instance (q : List Frac) : DecidableRel (searchRel q) := fun _ _ =>
  inferInstanceAs (Decidable (_ ∨ (_ ∧ _)))

instance (q : List Frac) : IsTotal Memory (searchRel q) := by
  constructor
  intro a b
  rcases lt_trichotomy a.importance b.importance with h | h | h
  · exact Or.inr (Or.inl h)
  · rcases Frac.le_total (cosineDistance a.embedding q) (cosineDistance b.embedding q)
      with hd | hd
    · exact Or.inl (Or.inr ⟨h, hd⟩)
    · exact Or.inr (Or.inr ⟨h.symm, hd⟩)
  · exact Or.inl (Or.inl h)

instance (q : List Frac) : IsTrans Memory (searchRel q) := by
  constructor
  intro a b c hab hbc
  rcases hab with h1 | ⟨h1, h1d⟩ <;> rcases hbc with h2 | ⟨h2, h2d⟩
  · exact Or.inl (lt_trans h2 h1)
  · exact Or.inl (h2 ▸ h1)
  · exact Or.inl (h1 ▸ h2)
  · exact Or.inr ⟨h1.trans h2, Frac.le_trans h1d h2d⟩

/-- The WHERE clause of `match_memories`: project match, optional category
match, similarity at least the threshold. -/
def matchPred (q : List Frac) (match_project_id : String)
    (match_category : Option String) (match_threshold : Frac) (m : Memory) : Bool :=
  decide (m.project_id = match_project_id ∧
    (match_category = none ∨ m.category = match_category) ∧
    match_threshold ≤ similarityOf m q)

/-- SQL function `match_memories` (schema.sql): filter by project, optional
category and similarity threshold, order by importance descending then
cosine distance ascending, return at most `match_count` rows with the
computed similarity. -/
def match_memories (db : DB) (query_embedding : List Frac) (match_project_id : String)
    (match_category : Option String) (match_threshold : Frac) (match_count : Nat) :
    List SearchRow :=
  let cands := db.memories.filter
    (matchPred query_embedding match_project_id match_category match_threshold)
  let sorted := cands.insertionSort (searchRel query_embedding)
  (sorted.take match_count).map (fun m =>
    { id := m.id, project_id := m.project_id, category := m.category,
      content := m.content, metadata := m.metadata, mtype := m.mtype,
      importance := m.importance, created_at := m.created_at,
      similarity := similarityOf m query_embedding })

/-- Tool handler `search_memories` (index.ts). It embeds the query, calls
the `match_memories` RPC and, if the RPC reports an error (for example when
the SQL function does not exist), the handler throws and the catch block
returns an error result: there is no fallback path of any kind. `rpcOk`
is true when the backing similarity-search capability is available. -/
def search_memories (rpcOk : Bool) (db : DB) (query_embedding : List Frac)
    (project_id : String) (category : Option String)
    (similarity_threshold : Frac) (limit : Nat) : Except String (List SearchRow) :=
  if rpcOk then
    Except.ok (match_memories db query_embedding project_id category
      similarity_threshold limit)
  else
    Except.error "Supabase error: function match_memories does not exist"

/-- Comparison for `ORDER BY created_at DESC` used by `list_memories`. -/
def createdDescRel (a b : Memory) : Prop :=
  b.created_at ≤ a.created_at

instance : DecidableRel createdDescRel := fun a b =>
  inferInstanceAs (Decidable (b.created_at ≤ a.created_at))

instance : IsTotal Memory createdDescRel :=
  ⟨fun a b => (Int.le_total b.created_at a.created_at).imp id id⟩

instance : IsTrans Memory createdDescRel :=
  ⟨fun _ _ _ hab hbc => le_trans hbc hab⟩

/-- Tool handler `list_memories` (index.ts): filter by project and optional
category, order by `created_at` descending, and return the Supabase range
`[offset, offset + limit - 1]`. The handler projects a subset of columns;
we return the whole rows. -/
def list_memories (db : DB) (project_id : String) (category : Option String)
    (limit offset : Nat) : List Memory :=
  let rows := db.memories.filter (fun m =>
    decide (m.project_id = project_id ∧ (category = none ∨ m.category = category)))
  ((rows.insertionSort createdDescRel).drop offset).take limit

/-- Tool handler `delete_memory` (index.ts):
`delete from memories where id = memory_id and project_id = project_id`.
The `memory_relations` foreign keys are declared `ON DELETE CASCADE`, so
every relation referencing a deleted row is removed in the same statement.
The handler replies with the fixed text "Memory deleted" whether or not a
row matched; only an I/O failure (not modelled) produces an error reply. -/
def delete_memory (db : DB) (memory_id : Nat) (project_id : String) : DB × String :=
  let removed := db.memories.filter (fun m =>
    decide (m.id = memory_id ∧ m.project_id = project_id))
  let mems := db.memories.filter (fun m =>
    decide (¬(m.id = memory_id ∧ m.project_id = project_id)))
  let rels := db.memory_relations.filter (fun r =>
    decide (¬∃ m ∈ removed, m.id = r.source_id ∨ m.id = r.target_id))
  ({ db with memories := mems, memory_relations := rels }, "Memory deleted")

/-- Tool handler `create_reaction` (index.ts; the spec calls the operation
`create_relation`): a bare insert into `memory_relations`. Postgres enforces
the two `REFERENCES memories(id)` foreign keys (violation 23503 when an
endpoint row is missing) and `UNIQUE(source_id, target_id, relation_type)`
(violation 23505 on a duplicate triple); the handler surfaces either
failure as an error result. -/
def create_reaction (db : DB) (now : Int) (newId : Nat)
    (source_id target_id : Nat) (relation_type : String) : Except MCPError DB :=
  if ¬(db.memories.any (fun m => m.id == source_id)) ∨
      ¬(db.memories.any (fun m => m.id == target_id)) then
    Except.error MCPError.notFound
  else if db.memory_relations.any (fun r =>
      decide (r.source_id = source_id ∧ r.target_id = target_id ∧
        r.relation_type = relation_type)) then
    Except.error MCPError.conflict
  else
    Except.ok { db with memory_relations := db.memory_relations ++
      [{ id := newId, source_id := source_id, target_id := target_id,
         relation_type := relation_type, created_at := now }] }

/-- Row shape returned by the SQL function `get_related_memories`. -/
structure RelatedRow where
  relation_type : String
  direction : String
  memory_id : Nat
  category : Option String
  content : String
  mtype : String
deriving DecidableEq

/-- SQL function `get_related_memories` (schema.sql): union of the outgoing
edges (relations with the given source, joined with the target memory) and
the incoming edges (relations with the given target, joined with the source
memory). The join is on the `memories` primary key, so `find?` models it. -/
def get_related_memories (db : DB) (start_id : Nat) : List RelatedRow :=
  (db.memory_relations.filterMap (fun r =>
    if r.source_id = start_id then
      (db.memories.find? (fun m => m.id == r.target_id)).map (fun m =>
        { relation_type := r.relation_type, direction := "outgoing",
          memory_id := m.id, category := m.category, content := m.content,
          mtype := m.mtype })
    else none)) ++
  (db.memory_relations.filterMap (fun r =>
    if r.target_id = start_id then
      (db.memories.find? (fun m => m.id == r.source_id)).map (fun m =>
        { relation_type := r.relation_type, direction := "incoming",
          memory_id := m.id, category := m.category, content := m.content,
          mtype := m.mtype })
    else none))

/-- Tool handler `store_memory` (index.ts): zod validates
`importance: z.number().min(1).max(5)`; the insert into `memories` is then
checked by the `vector(384)` column, which rejects a vector of any other
dimension. A successful insert creates one row with both timestamp columns
defaulting to `NOW()` and replies with the new id. -/
def store_memory (db : DB) (now : Int) (newId : Nat)
    (content category project_id : String) (embedding : List Frac)
    (mtype : String) (importance : Int) (metadata : String) :
    Except MCPError (DB × Nat) :=
  if importance < 1 ∨ 5 < importance then
    Except.error MCPError.validation
  else if embedding.length ≠ 384 then
    Except.error MCPError.validation
  else
    Except.ok ({ db with memories := db.memories ++
      [{ id := newId, project_id := project_id, category := some category,
         content := content, embedding := embedding, metadata := metadata,
         mtype := mtype, importance := importance, created_at := now,
         updated_at := now }] }, newId)

/-- Match on the `UNIQUE(project_id, category, key)` triple of
`structured_memories`. -/
def structuredMatches (project_id category key : String) (e : StructuredEntry) : Bool :=
  decide (e.project_id = project_id ∧ e.category = category ∧ e.key = key)

/-- Tool handler `set_structured_memory` (index.ts): a Supabase `upsert`
with `onConflict: project_id,category,key`. On conflict the existing row is
updated with the supplied columns — `value` always, `description` only when
the caller passed one (an undefined field is dropped from the request body,
so the stored description is preserved) — and the `BEFORE UPDATE` trigger
sets `updated_at = NOW()`; `created_at` is not touched. Otherwise a fresh
row is inserted with both timestamps defaulting to `NOW()`. -/
def set_structured_memory (db : DB) (now : Int) (newId : Nat)
    (project_id category key : String) (value : String)
    (description : Option String) : DB :=
  if db.structured_memories.any (structuredMatches project_id category key) then
    { db with structured_memories := db.structured_memories.map (fun e =>
        if structuredMatches project_id category key e then
          { e with value := value,
                   description := description.or e.description,
                   updated_at := now }
        else e) }
  else
    { db with structured_memories := db.structured_memories ++
      [{ id := newId, project_id := project_id, category := category,
         key := key, value := value, description := description,
         created_at := now, updated_at := now }] }

/-- Match on the `UNIQUE(session_id, key)` pair of `short_term_memory`. -/
def shortTermMatches (session_id key : String) (e : ShortTermEntry) : Bool :=
  decide (e.session_id = session_id ∧ e.key = key)

/-- Tool handler `set_short_term_memory` (index.ts): `expires_at` is
computed only under `if (ttl_seconds)`, a JavaScript truthiness test, so an
absent ttl and `ttl_seconds = 0` both store `expires_at = null`, while any
non-zero ttl stores `now + ttl_seconds`. The row is then upserted with
`onConflict: session_id,key` (on conflict `value` and `expires_at` are
replaced and `created_at` is untouched). -/
def set_short_term_memory (db : DB) (now : Int) (newId : Nat)
    (session_id key : String) (value : String) (ttl_seconds : Option Int) : DB :=
  let expires_at : Option Int :=
    match ttl_seconds with
    | some t => if t = 0 then none else some (now + t)
    | none => none
  if db.short_term_memory.any (shortTermMatches session_id key) then
    { db with short_term_memory := db.short_term_memory.map (fun e =>
        if shortTermMatches session_id key e then
          { e with value := value, expires_at := expires_at }
        else e) }
  else
    { db with short_term_memory := db.short_term_memory ++
      [{ id := newId, session_id := session_id, key := key, value := value,
         created_at := now, expires_at := expires_at }] }

/-- Reply of `get_short_term_memory`: the handler prints "null" when no row
matches, "null (expired)" after the lazy delete, and the value otherwise. -/
inductive GetResult where
  | value (v : String)
  | notFound
  | expiredNotFound
deriving Repr, DecidableEq

/-- Tool handler `get_short_term_memory` (index.ts): select the row for
`(session_id, key)`; if none, reply not-found. If the row has a non-null
`expires_at` and `new Date(expires_at) < new Date()` — a strict comparison
with the current time — delete the row lazily and reply expired; otherwise
reply with the stored value. -/
def get_short_term_memory (db : DB) (now : Int) (session_id key : String) :
    GetResult × DB :=
  match db.short_term_memory.find? (shortTermMatches session_id key) with
  | none => (GetResult.notFound, db)
  | some e =>
    match e.expires_at with
    | some t =>
      if t < now then
        (GetResult.expiredNotFound,
          { db with short_term_memory := db.short_term_memory.filter (fun e2 =>
              !shortTermMatches session_id key e2) })
      else (GetResult.value e.value, db)
    | none => (GetResult.value e.value, db)

/-! Concrete fixtures used by the witness and counterexample theorems. -/

/-- Empty database. -/
def emptyDB : DB :=
  { memories := [], memory_relations := [], structured_memories := [],
    short_term_memory := [] }

/-- The fraction 0. -/
def fr0 : Frac := Frac.ofInt 0

/-- The fraction 1. -/
def fr1 : Frac := Frac.ofInt 1

/-- Unit vector along the first axis, 384 dimensions. -/
def embA : List Frac := fr1 :: List.replicate 383 fr0

/-- Unit vector along the second axis, 384 dimensions. -/
def embB : List Frac := fr0 :: fr1 :: List.replicate 382 fr0

/-- Normalized query vector (3/5, 4/5, 0, ...): closer to `embB` than to
`embA`. -/
def queryEmb : List Frac :=
  fr 3 5 (by decide) :: fr 4 5 (by decide) :: List.replicate 382 fr0

/-- Threshold 1/2 from the spec's ranking scenario. -/
def half : Frac := fr 1 2 (by decide)

/-- Memory A of the spec's ranking scenario: importance 5. -/
def memA : Memory :=
  { id := 1, project_id := "p1", category := some "decision", content := "A",
    embedding := embA, metadata := "m", mtype := "episodic", importance := 5,
    created_at := 10, updated_at := 10 }

/-- Memory B of the spec's ranking scenario: importance 1, closer to the
query. -/
def memB : Memory :=
  { id := 2, project_id := "p1", category := some "decision", content := "B",
    embedding := embB, metadata := "m", mtype := "episodic", importance := 1,
    created_at := 20, updated_at := 20 }

/-- Database holding exactly the two scenario memories. -/
def dbAB : DB :=
  { memories := [memA, memB], memory_relations := [], structured_memories := [],
    short_term_memory := [] }

/-- Older memory for the listing fixture. -/
def memL1 : Memory :=
  { id := 3, project_id := "p1", category := some "note", content := "old",
    embedding := [], metadata := "m", mtype := "episodic", importance := 1,
    created_at := 10, updated_at := 10 }

/-- Newer memory for the listing fixture. -/
def memL2 : Memory :=
  { id := 4, project_id := "p1", category := some "note", content := "new",
    embedding := [], metadata := "m", mtype := "episodic", importance := 1,
    created_at := 20, updated_at := 20 }

/-- Database with two memories of distinct creation times. -/
def dbList : DB :=
  { memories := [memL1, memL2], memory_relations := [], structured_memories := [],
    short_term_memory := [] }

/-- Single memory owned by project "p1". -/
def mem3 : Memory :=
  { id := 1, project_id := "p1", category := some "note", content := "x",
    embedding := [], metadata := "m", mtype := "episodic", importance := 1,
    created_at := 10, updated_at := 10 }

/-- Database with a single memory, for the cross-project delete check. -/
def db3 : DB :=
  { memories := [mem3], memory_relations := [], structured_memories := [],
    short_term_memory := [] }

/-- Short-term entry expiring at time 100. -/
def entryExp : ShortTermEntry :=
  { id := 1, session_id := "s1", key := "k", value := "v", created_at := 0,
    expires_at := some 100 }

/-- Database with one expiring short-term entry. -/
def dbExp : DB :=
  { memories := [], memory_relations := [], structured_memories := [],
    short_term_memory := [entryExp] }

/-- First endpoint of the relation fixture. -/
def relMem1 : Memory :=
  { id := 1, project_id := "p", category := some "c", content := "one",
    embedding := [], metadata := "m", mtype := "episodic", importance := 1,
    created_at := 1, updated_at := 1 }

/-- Second endpoint of the relation fixture. -/
def relMem2 : Memory :=
  { id := 2, project_id := "p", category := some "c", content := "two",
    embedding := [], metadata := "m", mtype := "episodic", importance := 1,
    created_at := 2, updated_at := 2 }

/-- Existing edge from memory 1 to memory 2. -/
def rel12 : Relation :=
  { id := 7, source_id := 1, target_id := 2, relation_type := "caused_by",
    created_at := 3 }

/-- Database with two memories joined by one relation. -/
def dbRel : DB :=
  { memories := [relMem1, relMem2], memory_relations := [rel12],
    structured_memories := [], short_term_memory := [] }

/-! Theorems. Each claim of the specification is settled by one theorem
below; auxiliary lemmas shared by several proofs come first. -/

theorem map_ite_id {α : Type} (P : α → Bool) (g : α → α) :
    ∀ l : List α, (∀ e ∈ l, P e = false) →
      l.map (fun e => if P e then g e else e) = l := by
  intro l h
  induction l with
  | nil => rfl
  | cons x xs ih =>
    have hx : P x = false := h x (List.mem_cons_self x xs)
    simp only [List.map_cons, hx, Bool.false_eq_true, if_false]
    rw [ih (fun e he => h e (List.mem_cons_of_mem x he))]

set_option maxRecDepth 10000

theorem match_memories_pairwise (db : DB) (q : List Frac) (pid : String)
    (cat : Option String) (thr : Frac) (cnt : Nat) :
    List.Pairwise
      (fun x y : SearchRow => x.importance ≠ y.importance →
        y.importance < x.importance)
      (match_memories db q pid cat thr cnt) := by
  have hs : List.Sorted (searchRel q)
      ((db.memories.filter (matchPred q pid cat thr)).insertionSort (searchRel q)) :=
    List.sorted_insertionSort (searchRel q) _
  have ht : List.Pairwise (searchRel q)
      (((db.memories.filter (matchPred q pid cat thr)).insertionSort
        (searchRel q)).take cnt) :=
    List.Pairwise.sublist (List.take_sublist cnt _) hs
  show List.Pairwise _ (List.map _ _)
  rw [List.pairwise_map]
  refine ht.imp ?_
  intro a b hab hne
  rcases hab with h | ⟨h, _⟩
  · exact h
  · exact absurd h hne

/-- Claim C1: search results are ranked with importance as the primary key
(descending): whenever two returned rows have different importance, the
earlier row has the strictly higher importance, regardless of similarity. -/
theorem match_memories_importance_ranking (db : DB) (q : List Frac) (pid : String)
    (cat : Option String) (thr : Frac) (cnt : Nat) (i j : Nat)
    (hi : i < (match_memories db q pid cat thr cnt).length)
    (hj : j < (match_memories db q pid cat thr cnt).length) (hij : i < j)
    (hne : ((match_memories db q pid cat thr cnt).get ⟨i, hi⟩).importance ≠
      ((match_memories db q pid cat thr cnt).get ⟨j, hj⟩).importance) :
    ((match_memories db q pid cat thr cnt).get ⟨j, hj⟩).importance <
      ((match_memories db q pid cat thr cnt).get ⟨i, hi⟩).importance :=
  (List.pairwise_iff_get.mp (match_memories_pairwise db q pid cat thr cnt)
    ⟨i, hi⟩ ⟨j, hj⟩ hij) hne

/-- Witness for C1, realizing the spec's scenario: memories A (importance 5)
and B (importance 1) both pass threshold 1/2 with B strictly closer to the
query, yet the search returns [A, B]. -/
theorem match_memories_importance_ranking_witness :
    (match_memories dbAB queryEmb "p1" (some "decision") half 5).map SearchRow.id
        = [1, 2] ∧
      ((match_memories dbAB queryEmb "p1" (some "decision") half 5).get
          ⟨1, by decide⟩).importance <
        ((match_memories dbAB queryEmb "p1" (some "decision") half 5).get
          ⟨0, by decide⟩).importance :=
  ⟨by decide,
    match_memories_importance_ranking dbAB queryEmb "p1" (some "decision") half 5
      0 1 (by decide) (by decide) (by decide) (by decide)⟩

/-- Claim C7: every search result passes the similarity threshold, belongs
to the requested project, and matches the category filter when one is
given. -/
theorem match_memories_filters (db : DB) (q : List Frac) (pid : String)
    (cat : Option String) (thr : Frac) (cnt : Nat) :
    ∀ r ∈ match_memories db q pid cat thr cnt,
      thr ≤ r.similarity ∧ r.project_id = pid ∧
        ∀ c, cat = some c → r.category = some c := by
  intro r hr
  simp only [match_memories, List.mem_map] at hr
  obtain ⟨m, hm, rfl⟩ := hr
  have hm2 : m ∈ (db.memories.filter (matchPred q pid cat thr)).insertionSort
      (searchRel q) := List.mem_of_mem_take hm
  rw [List.mem_insertionSort] at hm2
  rw [List.mem_filter] at hm2
  have hp := hm2.2
  simp only [matchPred, decide_eq_true_eq] at hp
  obtain ⟨hpid, hcat, hthr⟩ := hp
  refine ⟨hthr, hpid, ?_⟩
  intro c hc
  rcases hcat with h | h
  · rw [hc] at h
    cases h
  · rw [hc] at h
    exact h

/-- Witness for C7: the top result of the concrete scenario search passes
the 1/2 threshold, belongs to project p1, and has the requested category. -/
theorem match_memories_filters_witness :
    half ≤ ((match_memories dbAB queryEmb "p1" (some "decision") half 5).get
        ⟨0, by decide⟩).similarity ∧
      ((match_memories dbAB queryEmb "p1" (some "decision") half 5).get
        ⟨0, by decide⟩).project_id = "p1" ∧
      ((match_memories dbAB queryEmb "p1" (some "decision") half 5).get
        ⟨0, by decide⟩).category = some "decision" := by
  have h := match_memories_filters dbAB queryEmb "p1" (some "decision") half 5
    ((match_memories dbAB queryEmb "p1" (some "decision") half 5).get
      ⟨0, by decide⟩)
    (List.get_mem _ 0 (by decide))
  exact ⟨h.1, h.2.1, h.2.2 "decision" rfl⟩

/-- Claim C2 (code evidence): when the backing `match_memories` capability
is unavailable, `search_memories` fails outright with an error result; it
does not fall back to the chronological `list_memories` ordering, which is
nonempty and available on the very same state. The repository README
documents such a fallback, so this is a divergence between the code and
its own documentation. -/
theorem search_memories_no_fallback :
    search_memories false dbList [] "p1" none half 5
        = Except.error "Supabase error: function match_memories does not exist" ∧
      list_memories dbList "p1" none 20 0 = [memL2, memL1] :=
  ⟨rfl, by decide⟩

/-- Claim C3 (counterexample): `delete_memory` called with an existing id
but the wrong project deletes nothing — and still replies with the success
text "Memory deleted". The handler has no not-found reply at all, so the
claimed `NotFound` outcome for a missing id or ownership mismatch never
happens. -/
theorem delete_memory_no_notfound_counterexample :
    delete_memory db3 1 "p2" = (db3, "Memory deleted") := by decide

/-- Claim C3 (amended): `delete_memory` never touches a memory whose
`project_id` differs from the caller-supplied one, removes exactly the
rows matching both id and project, and always replies "Memory deleted",
whether or not anything was deleted. -/
theorem delete_memory_project_scoped (db : DB) (mid : Nat) (pid : String) :
    (∀ m ∈ db.memories, m.project_id ≠ pid →
        m ∈ (delete_memory db mid pid).1.memories) ∧
      (∀ m ∈ (delete_memory db mid pid).1.memories,
        ¬(m.id = mid ∧ m.project_id = pid)) ∧
      (delete_memory db mid pid).2 = "Memory deleted" := by
  refine ⟨?_, ?_, rfl⟩
  · intro m hm hproj
    show m ∈ List.filter _ _
    rw [List.mem_filter]
    refine ⟨hm, ?_⟩
    simp only [decide_eq_true_eq]
    intro hcon
    exact hproj hcon.2
  · intro m hm
    have hm2 : m ∈ List.filter
        (fun m => decide (¬(m.id = mid ∧ m.project_id = pid))) db.memories := hm
    rw [List.mem_filter] at hm2
    exact of_decide_eq_true hm2.2

/-- Witness for the amended C3: in the concrete cross-project call, the
foreign memory survives and the reply is still the success text. -/
theorem delete_memory_project_scoped_witness :
    mem3 ∈ (delete_memory db3 1 "p2").1.memories ∧
      (delete_memory db3 1 "p2").2 = "Memory deleted" := by
  have h := delete_memory_project_scoped db3 1 "p2"
  exact ⟨h.1 mem3 (by decide) (by decide), h.2.2⟩

/-- Claim C4 (counterexample): the expiry comparison in the handler is
strict (`new Date(expires_at) < new Date()`), so at the exact boundary
`expires_at = now` — where the claim demands `ExpiredNotFound` and a lazy
delete — the stored value is returned and the row is kept. -/
theorem get_short_term_boundary_counterexample :
    get_short_term_memory dbExp 100 "s1" "k" = (GetResult.value "v", dbExp) := by
  decide

theorem get_short_term_after_delete (db : DB) (now2 : Int) (sid key : String) :
    (get_short_term_memory
      { db with short_term_memory := db.short_term_memory.filter (fun e2 =>
          !shortTermMatches sid key e2) } now2 sid key).1 = GetResult.notFound := by
  have hnone : ((db.short_term_memory.filter (fun e2 =>
      !shortTermMatches sid key e2)).find? (shortTermMatches sid key)) = none := by
    rw [List.find?_eq_none]
    intro e he
    rw [List.mem_filter] at he
    have h2 := he.2
    simp only [Bool.not_eq_true'] at h2
    simp [h2]
  simp only [get_short_term_memory, hnone]

/-- Claim C4 (amended): `get_short_term_memory` returns not-found when no
entry matches; when the entry has an expiry STRICTLY before `now` it
deletes the entry lazily and reports it expired, and no later read of the
same key can resurrect the value; when the entry is unexpired — expiry
null, equal to `now`, or in the future — the stored value is returned.
(The original claim's boundary `expires_at = now` is refuted above: the
code's comparison is strict.) -/
theorem get_short_term_memory_expiry (db : DB) (now : Int) (sid key : String) :
    (db.short_term_memory.find? (shortTermMatches sid key) = none →
      get_short_term_memory db now sid key = (GetResult.notFound, db)) ∧
    (∀ e, db.short_term_memory.find? (shortTermMatches sid key) = some e →
      ∀ t, e.expires_at = some t → t < now →
        (get_short_term_memory db now sid key).1 = GetResult.expiredNotFound ∧
        (∀ now2, (get_short_term_memory
          (get_short_term_memory db now sid key).2 now2 sid key).1
            = GetResult.notFound)) ∧
    (∀ e, db.short_term_memory.find? (shortTermMatches sid key) = some e →
      (e.expires_at = none ∨ ∃ t, e.expires_at = some t ∧ now ≤ t) →
        get_short_term_memory db now sid key = (GetResult.value e.value, db)) := by
  refine ⟨?_, ?_, ?_⟩
  · intro hnone
    simp only [get_short_term_memory, hnone]
  · intro e he t ht hlt
    have hres : get_short_term_memory db now sid key =
        (GetResult.expiredNotFound,
          { db with short_term_memory := db.short_term_memory.filter (fun e2 =>
              !shortTermMatches sid key e2) }) := by
      simp only [get_short_term_memory, he, ht, if_pos hlt]
    refine ⟨by rw [hres], ?_⟩
    intro now2
    rw [hres]
    exact get_short_term_after_delete db now2 sid key
  · intro e he hun
    rcases hun with hnone | ⟨t, ht, hle⟩
    · simp only [get_short_term_memory, he, hnone]
    · have : ¬(t < now) := not_lt.mpr hle
      simp only [get_short_term_memory, he, ht, if_neg this]

/-- Witness for the amended C4: the fixture entry expiring at 100, read at
200, reports expired, and a later read at 300 finds nothing. -/
theorem get_short_term_memory_expiry_witness :
    (get_short_term_memory dbExp 200 "s1" "k").1 = GetResult.expiredNotFound ∧
      (get_short_term_memory (get_short_term_memory dbExp 200 "s1" "k").2
        300 "s1" "k").1 = GetResult.notFound := by
  have h := (get_short_term_memory_expiry dbExp 200 "s1" "k").2.1 entryExp
    (by decide) 100 rfl (by decide)
  exact ⟨h.1, h.2 300⟩

/-- Claim C5: `create_relation` fails with a not-found error when either
endpoint memory is missing; with both endpoints present it fails with a
conflict error when the exact triple already exists (never a silent no-op
success); and a successful insert appends exactly one edge, so at most one
edge per triple ever exists. -/
theorem create_reaction_endpoints_unique (db : DB) (now : Int) (newId : Nat)
    (src tgt : Nat) (rt : String) :
    (((∀ m ∈ db.memories, m.id ≠ src) ∨ (∀ m ∈ db.memories, m.id ≠ tgt)) →
      create_reaction db now newId src tgt rt = Except.error MCPError.notFound) ∧
    ((∃ m ∈ db.memories, m.id = src) → (∃ m ∈ db.memories, m.id = tgt) →
      (∃ r ∈ db.memory_relations, r.source_id = src ∧ r.target_id = tgt ∧
        r.relation_type = rt) →
      create_reaction db now newId src tgt rt = Except.error MCPError.conflict) ∧
    (∀ db2, create_reaction db now newId src tgt rt = Except.ok db2 →
      db2.memory_relations = db.memory_relations ++
        [{ id := newId, source_id := src, target_id := tgt,
           relation_type := rt, created_at := now }] ∧
      (db2.memory_relations.filter (fun r =>
        decide (r.source_id = src ∧ r.target_id = tgt ∧
          r.relation_type = rt))).length = 1) := by
  refine ⟨?_, ?_, ?_⟩
  · intro hmiss
    have hcond : ¬(db.memories.any (fun m => m.id == src)) ∨
        ¬(db.memories.any (fun m => m.id == tgt)) := by
      rcases hmiss with h | h
      · refine Or.inl ?_
        simp only [List.any_eq_true, not_exists, beq_iff_eq]
        intro m
        intro hm
        exact h m hm.1 hm.2
      · refine Or.inr ?_
        simp only [List.any_eq_true, not_exists, beq_iff_eq]
        intro m
        intro hm
        exact h m hm.1 hm.2
    simp only [create_reaction, if_pos hcond]
  · intro hsrc htgt hdup
    have hc1 : ¬(¬(db.memories.any (fun m => m.id == src)) ∨
        ¬(db.memories.any (fun m => m.id == tgt))) := by
      push_neg
      constructor
      · rw [List.any_eq_true]
        obtain ⟨m, hm, he⟩ := hsrc
        exact ⟨m, hm, by simp [he]⟩
      · rw [List.any_eq_true]
        obtain ⟨m, hm, he⟩ := htgt
        exact ⟨m, hm, by simp [he]⟩
    have hc2 : db.memory_relations.any (fun r =>
        decide (r.source_id = src ∧ r.target_id = tgt ∧
          r.relation_type = rt)) = true := by
      rw [List.any_eq_true]
      obtain ⟨r, hr, h1, h2, h3⟩ := hdup
      exact ⟨r, hr, by simp [h1, h2, h3]⟩
    simp only [create_reaction, if_neg hc1, if_pos hc2]
  · intro db2 hok
    unfold create_reaction at hok
    split at hok
    · cases hok
    · split at hok
      · cases hok
      · rename_i hnotdup
        cases hok
        refine ⟨rfl, ?_⟩
        rw [List.filter_append]
        have hnil : db.memory_relations.filter (fun r =>
            decide (r.source_id = src ∧ r.target_id = tgt ∧
              r.relation_type = rt)) = [] := by
          rw [List.filter_eq_nil_iff]
          intro r hr
          intro hcon
          exact hnotdup (List.any_eq_true.mpr ⟨r, hr, hcon⟩)
        rw [hnil]
        simp

/-- Witness for C5: on the concrete fixture, repeating the existing edge
(1, 2, caused_by) is a conflict error, and an edge to the missing memory 3
is a not-found error. -/
theorem create_reaction_endpoints_unique_witness :
    create_reaction dbRel 5 9 1 2 "caused_by" = Except.error MCPError.conflict ∧
      create_reaction dbRel 5 9 1 3 "rt" = Except.error MCPError.notFound := by
  have h1 := (create_reaction_endpoints_unique dbRel 5 9 1 2 "caused_by").2.1
    ⟨relMem1, by decide, rfl⟩ ⟨relMem2, by decide, rfl⟩
    ⟨rel12, by decide, rfl, rfl, rfl⟩
  have h2 := (create_reaction_endpoints_unique dbRel 5 9 1 3 "rt").1
    (Or.inr (by decide))
  exact ⟨h1, h2⟩

/-- Claim C6: `store_memory` rejects with a validation error any request
whose importance lies outside [1, 5] and any whose embedding length differs
from 384; on success it appends exactly one new memory row with
`created_at = updated_at = now` and replies with its id. -/
theorem store_memory_validation (db : DB) (now : Int) (newId : Nat)
    (content category pid : String) (embedding : List Frac)
    (mtype metadata : String) (importance : Int) :
    ((importance < 1 ∨ 5 < importance) →
      store_memory db now newId content category pid embedding mtype importance
        metadata = Except.error MCPError.validation) ∧
    (embedding.length ≠ 384 →
      store_memory db now newId content category pid embedding mtype importance
        metadata = Except.error MCPError.validation) ∧
    (1 ≤ importance → importance ≤ 5 → embedding.length = 384 →
      store_memory db now newId content category pid embedding mtype importance
          metadata = Except.ok
        ({ db with memories := db.memories ++
          [{ id := newId, project_id := pid, category := some category,
             content := content, embedding := embedding, metadata := metadata,
             mtype := mtype, importance := importance, created_at := now,
             updated_at := now }] }, newId)) := by
  refine ⟨?_, ?_, ?_⟩
  · intro hbad
    simp only [store_memory, if_pos hbad]
  · intro hlen
    unfold store_memory
    split
    · rfl
    · rfl
  · intro h1 h5 hlen
    have hr : ¬(importance < 1 ∨ 5 < importance) := by
      push_neg
      exact ⟨h1, h5⟩
    have hl : ¬(embedding.length ≠ 384) := by
      simp [hlen]
    simp only [store_memory, if_neg hr, if_neg hl]

/-- Witness for C6: importance 0 and a 383-dimension embedding are both
rejected; a valid request on the empty database stores one row with equal
timestamps and returns the fresh id. -/
theorem store_memory_validation_witness :
    store_memory emptyDB 7 1 "c" "cat" "p1" (List.replicate 384 fr0) "episodic" 0
        "m" = Except.error MCPError.validation ∧
      store_memory emptyDB 7 1 "c" "cat" "p1" (List.replicate 383 fr0) "episodic" 2
        "m" = Except.error MCPError.validation ∧
      store_memory emptyDB 7 1 "c" "cat" "p1" (List.replicate 384 fr0) "episodic" 2
          "m" = Except.ok
        ({ emptyDB with memories := emptyDB.memories ++
          [{ id := 1, project_id := "p1", category := some "cat",
             content := "c", embedding := List.replicate 384 fr0,
             metadata := "m", mtype := "episodic", importance := 2,
             created_at := 7, updated_at := 7 }] }, 1) := by
  have ha := (store_memory_validation emptyDB 7 1 "c" "cat" "p1"
    (List.replicate 384 fr0) "episodic" "m" 0).1 (Or.inl (by decide))
  have hb := (store_memory_validation emptyDB 7 1 "c" "cat" "p1"
    (List.replicate 383 fr0) "episodic" "m" 2).2.1 (by simp)
  have hc := (store_memory_validation emptyDB 7 1 "c" "cat" "p1"
    (List.replicate 384 fr0) "episodic" "m" 2).2.2 (by decide) (by decide) (by simp)
  exact ⟨ha, hb, hc⟩

theorem set_structured_rows (db : DB) (now : Int) (newId : Nat)
    (pid cat key v : String) (d : Option String) :
    (set_structured_memory db now newId pid cat key v d).structured_memories =
      if db.structured_memories.any (structuredMatches pid cat key) then
        db.structured_memories.map (fun e =>
          if structuredMatches pid cat key e then
            { e with value := v, description := d.or e.description,
                     updated_at := now }
          else e)
      else db.structured_memories ++
        [{ id := newId, project_id := pid, category := cat, key := key,
           value := v, description := d, created_at := now,
           updated_at := now }] := by
  unfold set_structured_memory
  split
  · rfl
  · rfl

/-- Claim C8: `set_structured_memory` is an upsert on the triple
(project_id, category, key). Starting from a state with no row for the
triple, calling it twice with the same triple and value leaves exactly one
row for the triple, whose `created_at` is the time of the first write and
whose `updated_at` is the time of the second; all other rows are
untouched. -/
theorem set_structured_memory_upsert_idempotent (db : DB) (t1 t2 : Int)
    (id1 id2 : Nat) (pid cat key v : String) (d : Option String)
    (hfresh : ∀ e ∈ db.structured_memories,
      structuredMatches pid cat key e = false) :
    ((set_structured_memory (set_structured_memory db t1 id1 pid cat key v d)
        t2 id2 pid cat key v d).structured_memories.filter
          (structuredMatches pid cat key))
      = [{ id := id1, project_id := pid, category := cat, key := key,
           value := v, description := d, created_at := t1, updated_at := t2 }] ∧
    ((set_structured_memory (set_structured_memory db t1 id1 pid cat key v d)
        t2 id2 pid cat key v d).structured_memories.filter (fun e =>
          !structuredMatches pid cat key e))
      = db.structured_memories := by
  have hany1 : db.structured_memories.any (structuredMatches pid cat key)
      = false := by
    rw [List.any_eq_false]
    intro e he
    simp [hfresh e he]
  have hs1 : (set_structured_memory db t1 id1 pid cat key v d).structured_memories
      = db.structured_memories ++
        [{ id := id1, project_id := pid, category := cat, key := key,
           value := v, description := d, created_at := t1,
           updated_at := t1 }] := by
    rw [set_structured_rows, if_neg (by simp [hany1])]
  have hm1 : structuredMatches pid cat key
      { id := id1, project_id := pid, category := cat, key := key,
        value := v, description := d, created_at := t1,
        updated_at := t1 } = true := by
    simp [structuredMatches]
  have hany2 : (set_structured_memory db t1 id1 pid cat key v d).structured_memories.any
      (structuredMatches pid cat key) = true := by
    rw [hs1, List.any_eq_true]
    exact ⟨_, by simp, hm1⟩
  have hrows : (set_structured_memory (set_structured_memory db t1 id1 pid cat key v d)
      t2 id2 pid cat key v d).structured_memories
      = db.structured_memories ++
        [{ id := id1, project_id := pid, category := cat, key := key,
           value := v, description := d, created_at := t1,
           updated_at := t2 }] := by
    rw [set_structured_rows, if_pos hany2, hs1, List.map_append,
      map_ite_id _ _ db.structured_memories hfresh]
    simp [hm1, Option.or_self]
  constructor
  · rw [hrows, List.filter_append]
    have hnil : db.structured_memories.filter (structuredMatches pid cat key)
        = [] := by
      rw [List.filter_eq_nil_iff]
      intro e he
      simp [hfresh e he]
    rw [hnil]
    simp [structuredMatches]
  · rw [hrows, List.filter_append]
    have hself : db.structured_memories.filter (fun e =>
        !structuredMatches pid cat key e) = db.structured_memories := by
      rw [List.filter_eq_self]
      intro e he
      simp [hfresh e he]
    rw [hself]
    simp [structuredMatches]

/-- Witness for C8: two identical writes on the empty database leave one
row created at time 10 and updated at time 20. -/
theorem set_structured_memory_upsert_idempotent_witness :
    ((set_structured_memory (set_structured_memory emptyDB 10 1 "p" "c" "k" "v"
        none) 20 2 "p" "c" "k" "v" none).structured_memories.filter
          (structuredMatches "p" "c" "k"))
      = [{ id := 1, project_id := "p", category := "c", key := "k",
           value := "v", description := none, created_at := 10,
           updated_at := 20 }] :=
  (set_structured_memory_upsert_idempotent emptyDB 10 20 1 2 "p" "c" "k" "v"
    none (by intro e he; cases he)).1

/-- Claim C9: deleting a memory removes, in the same operation, every
relation in which it appears as source or target (the `ON DELETE CASCADE`
of both foreign keys), so afterwards no relation references it and
`get_related_memories` of any neighbor returns no edge to or from it. -/
theorem delete_memory_cascade (db : DB) (mid : Nat) (pid : String)
    (hex : ∃ m ∈ db.memories, m.id = mid ∧ m.project_id = pid) :
    (∀ r ∈ (delete_memory db mid pid).1.memory_relations,
        r.source_id ≠ mid ∧ r.target_id ≠ mid) ∧
      (∀ b, ∀ row ∈ get_related_memories (delete_memory db mid pid).1 b,
        row.memory_id ≠ mid) := by
  obtain ⟨m0, hm0, hid0, hpid0⟩ := hex
  have hm0removed : m0 ∈ db.memories.filter (fun m =>
      decide (m.id = mid ∧ m.project_id = pid)) := by
    rw [List.mem_filter]
    exact ⟨hm0, by simp [hid0, hpid0]⟩
  have hrel : ∀ r ∈ (delete_memory db mid pid).1.memory_relations,
      r.source_id ≠ mid ∧ r.target_id ≠ mid := by
    intro r hr
    simp only [delete_memory] at hr
    rw [List.mem_filter] at hr
    have hnot := of_decide_eq_true hr.2
    constructor
    · intro hsrc
      exact hnot ⟨m0, hm0removed, Or.inl (by rw [hid0, hsrc])⟩
    · intro htgt
      exact hnot ⟨m0, hm0removed, Or.inr (by rw [hid0, htgt])⟩
  refine ⟨hrel, ?_⟩
  intro b row hrow
  rw [get_related_memories, List.mem_append] at hrow
  rcases hrow with hout | hinc
  · rw [List.mem_filterMap] at hout
    obtain ⟨r, hr, hfr⟩ := hout
    by_cases hcond : r.source_id = b
    · rw [if_pos hcond, Option.map_eq_some'] at hfr
      obtain ⟨m, hfind, hrow2⟩ := hfr
      have hmid : m.id = r.target_id := by
        have := List.find?_some hfind
        simpa using this
      intro hbad
      have : row.memory_id = m.id := by rw [← hrow2]
      rw [this, hmid] at hbad
      exact (hrel r hr).2 hbad
    · rw [if_neg hcond] at hfr
      cases hfr
  · rw [List.mem_filterMap] at hinc
    obtain ⟨r, hr, hfr⟩ := hinc
    by_cases hcond : r.target_id = b
    · rw [if_pos hcond, Option.map_eq_some'] at hfr
      obtain ⟨m, hfind, hrow2⟩ := hfr
      have hmid : m.id = r.source_id := by
        have := List.find?_some hfind
        simpa using this
      intro hbad
      have : row.memory_id = m.id := by rw [← hrow2]
      rw [this, hmid] at hbad
      exact (hrel r hr).1 hbad
    · rw [if_neg hcond] at hfr
      cases hfr

/-- Witness for C9: after deleting memory 1 from the relation fixture, no
remaining relation and no traversal row from memory 2 mentions memory 1. -/
theorem delete_memory_cascade_witness :
    ((delete_memory dbRel 1 "p").1.memory_relations.all (fun r =>
        decide (r.source_id ≠ 1 ∧ r.target_id ≠ 1))) = true ∧
      ((get_related_memories (delete_memory dbRel 1 "p").1 2).all (fun row =>
        decide (row.memory_id ≠ 1))) = true := by
  have h := delete_memory_cascade dbRel 1 "p" ⟨relMem1, by decide, rfl, rfl⟩
  constructor
  · rw [List.all_eq_true]
    intro r hr
    exact decide_eq_true (h.1 r hr)
  · rw [List.all_eq_true]
    intro row hrow
    exact decide_eq_true (h.2 2 row hrow)

/-- Claim C10: `set_short_term_memory` with `ttl_seconds = 0` stores
`expires_at = null` and behaves exactly like omitting the ttl (JavaScript
truthiness: `if (ttl_seconds)` is false for 0), while any positive ttl
stores the upserted entry with `expires_at = now + ttl_seconds`. -/
theorem set_short_term_ttl_zero (db : DB) (now : Int) (newId : Nat)
    (sid key v : String) :
    set_short_term_memory db now newId sid key v (some 0)
        = set_short_term_memory db now newId sid key v none ∧
      (∀ t : Int, 0 < t →
        (∀ e ∈ (set_short_term_memory db now newId sid key v
            (some t)).short_term_memory,
          shortTermMatches sid key e = true →
            e.value = v ∧ e.expires_at = some (now + t)) ∧
        (∃ e ∈ (set_short_term_memory db now newId sid key v
            (some t)).short_term_memory,
          shortTermMatches sid key e = true)) := by
  constructor
  · rfl
  · intro t ht
    have hexp : (if t = 0 then (none : Option Int) else some (now + t))
        = some (now + t) := by
      rw [if_neg (by omega)]
    constructor
    · intro e he hmatch
      simp only [set_short_term_memory] at he
      by_cases hany : db.short_term_memory.any (shortTermMatches sid key) = true
      · rw [if_pos hany, List.mem_map] at he
        obtain ⟨x, hx, hfx⟩ := he
        by_cases hpx : shortTermMatches sid key x = true
        · rw [if_pos hpx] at hfx
          rw [← hfx]
          exact ⟨rfl, hexp⟩
        · rw [if_neg hpx] at hfx
          rw [← hfx] at hmatch
          exact absurd hmatch hpx
      · rw [if_neg hany, List.mem_append] at he
        rcases he with hin | hnew
        · rw [Bool.not_eq_true, List.any_eq_false] at hany
          exact absurd hmatch (hany e hin)
        · rw [List.mem_singleton] at hnew
          rw [hnew]
          exact ⟨rfl, hexp⟩
    · simp only [set_short_term_memory]
      by_cases hany : db.short_term_memory.any (shortTermMatches sid key) = true
      · rw [if_pos hany]
        rw [List.any_eq_true] at hany
        obtain ⟨x, hx, hpx⟩ := hany
        refine ⟨_, List.mem_map_of_mem _ hx, ?_⟩
        rw [if_pos hpx]
        have hx2 := of_decide_eq_true hpx
        simp [shortTermMatches, hx2.1, hx2.2]
      · rw [if_neg hany]
        refine ⟨_, List.mem_append_right _ (List.mem_singleton.mpr rfl), ?_⟩
        simp [shortTermMatches]

/-- Witness for C10: on the empty database, ttl 0 equals omitting the ttl,
and ttl 30 at time 100 stores expiry 130. -/
theorem set_short_term_ttl_zero_witness :
    set_short_term_memory emptyDB 100 1 "s" "k" "v" (some 0)
        = set_short_term_memory emptyDB 100 1 "s" "k" "v" none ∧
      ((set_short_term_memory emptyDB 100 1 "s" "k" "v"
          (some 30)).short_term_memory.any (fun e =>
        shortTermMatches "s" "k" e &&
          decide (e.value = "v" ∧ e.expires_at = some 130))) = true := by
  have h := set_short_term_ttl_zero emptyDB 100 1 "s" "k" "v"
  refine ⟨h.1, ?_⟩
  obtain ⟨hall, e, he, hm⟩ := h.2 30 (by omega)
  rw [List.any_eq_true]
  refine ⟨e, he, ?_⟩
  have hv := hall e he hm
  rw [hm]
  simp only [Bool.true_and]
  exact decide_eq_true (by exact ⟨hv.1, by rw [hv.2]; norm_num⟩)
